import Mathlib

/-!
Shallow embedding of the plette repository (src/plette/models.py and
src/plette/lockfiles.py) in Lean 4, together with theorems settling the
frozen claims about its specification.

Python values flowing through the library (JSON scalars, lists, dicts) are
modelled by the inductive type `PyVal`.  Python dicts are modelled as
association lists in insertion order, with first-occurrence lookup,
in-place update, and pop mirroring CPython dict semantics.  Raising an
exception is modelled by `Except PErr`.
-/

namespace Plette

/-- A Python value as it appears in the plette data flow: `None`, `bool`,
`int`, `str`, `list`, or `dict` (string keys, insertion order). -/
inductive PyVal where
  | none : PyVal
  | bool (b : Bool) : PyVal
  | int (n : Int) : PyVal
  | str (s : String) : PyVal
  | list (xs : List PyVal) : PyVal
  | dict (entries : List (String × PyVal)) : PyVal
deriving Repr

/-- Entries of a Python dict, in insertion order. -/
abbrev Entries := List (String × PyVal)

mutual

/-- Boolean equality on `PyVal` (Python `==` restricted to these shapes;
dict equality here is order-sensitive, which suffices because the model
only compares values produced in canonical field order). -/
def PyVal.beq : PyVal → PyVal → Bool
  | .none, .none => true
  | .bool a, .bool b => a == b
  | .int a, .int b => a == b
  | .str a, .str b => a == b
  | .list xs, .list ys => PyVal.beqList xs ys
  | .dict xs, .dict ys => PyVal.beqEntries xs ys
  | _, _ => false

def PyVal.beqList : List PyVal → List PyVal → Bool
  | [], [] => true
  | x :: xs, y :: ys => PyVal.beq x y && PyVal.beqList xs ys
  | _, _ => false

def PyVal.beqEntries : Entries → Entries → Bool
  | [], [] => true
  | (k, v) :: xs, (k2, v2) :: ys => k == k2 && PyVal.beq v v2 && PyVal.beqEntries xs ys
  | _, _ => false

end

mutual

theorem PyVal.beq_iff : ∀ a b : PyVal, PyVal.beq a b = true ↔ a = b
  | .none, .none => by simp [PyVal.beq]
  | .bool a, .bool b => by simp [PyVal.beq]
  | .int a, .int b => by simp [PyVal.beq]
  | .str a, .str b => by simp [PyVal.beq]
  | .list xs, .list ys => by
      simp only [PyVal.beq, PyVal.list.injEq]
      exact PyVal.beqList_iff xs ys
  | .dict xs, .dict ys => by
      simp only [PyVal.beq, PyVal.dict.injEq]
      exact PyVal.beqEntries_iff xs ys
  | .none, .bool _ | .none, .int _ | .none, .str _ | .none, .list _ | .none, .dict _
  | .bool _, .none | .bool _, .int _ | .bool _, .str _ | .bool _, .list _ | .bool _, .dict _
  | .int _, .none | .int _, .bool _ | .int _, .str _ | .int _, .list _ | .int _, .dict _
  | .str _, .none | .str _, .bool _ | .str _, .int _ | .str _, .list _ | .str _, .dict _
  | .list _, .none | .list _, .bool _ | .list _, .int _ | .list _, .str _ | .list _, .dict _
  | .dict _, .none | .dict _, .bool _ | .dict _, .int _ | .dict _, .str _ | .dict _, .list _ => by
      simp [PyVal.beq]

theorem PyVal.beqList_iff : ∀ xs ys : List PyVal, PyVal.beqList xs ys = true ↔ xs = ys
  | [], [] => by simp [PyVal.beqList]
  | x :: xs, y :: ys => by
      simp only [PyVal.beqList, Bool.and_eq_true, List.cons.injEq]
      exact and_congr (PyVal.beq_iff x y) (PyVal.beqList_iff xs ys)
  | [], _ :: _ => by simp [PyVal.beqList]
  | _ :: _, [] => by simp [PyVal.beqList]

theorem PyVal.beqEntries_iff : ∀ xs ys : Entries, PyVal.beqEntries xs ys = true ↔ xs = ys
  | [], [] => by simp [PyVal.beqEntries]
  | (k, v) :: xs, (k2, v2) :: ys => by
      simp only [PyVal.beqEntries, Bool.and_eq_true, List.cons.injEq, Prod.mk.injEq,
        beq_iff_eq]
      rw [PyVal.beq_iff, PyVal.beqEntries_iff]
  | [], _ :: _ => by simp [PyVal.beqEntries]
  | _ :: _, [] => by simp [PyVal.beqEntries]

end

instance : DecidableEq PyVal := fun a b =>
  decidable_of_iff (PyVal.beq a b = true) (PyVal.beq_iff a b)

/-- First-occurrence lookup in a Python dict (`d[k]` when present). -/
def dlookup : Entries → String → Option PyVal
  | [], _ => Option.none
  | (k, v) :: rest, key => if k = key then some v else dlookup rest key

/-- Python `k in d`. -/
def dhas (e : Entries) (key : String) : Bool :=
  (dlookup e key).isSome

/-- Python `d[k] = v`: replace in place if the key exists, else append. -/
def dset : Entries → String → PyVal → Entries
  | [], key, v => [(key, v)]
  | (k, w) :: rest, key, v =>
      if k = key then (k, v) :: rest else (k, w) :: dset rest key v

/-- Python `d.pop(k)`: the removed value and the remaining dict, or `none`
if the key is absent (where Python raises `KeyError`). -/
def dpop : Entries → String → Option (PyVal × Entries)
  | [], _ => Option.none
  | (k, v) :: rest, key =>
      if k = key then some (v, rest)
      else match dpop rest key with
        | some (w, rest2) => some (w, (k, v) :: rest2)
        | Option.none => Option.none

/-- Python exceptions raised by the embedded code. -/
inductive PErr where
  | valueError (msg : String) : PErr
  | validationError (msg : String) : PErr
  | typeError (msg : String) : PErr
  | keyError (msg : String) : PErr
  | attributeError (msg : String) : PErr
  | indexError (msg : String) : PErr
deriving Repr, DecidableEq

/-- Python truthiness of a `PyVal` (`bool(v)`). -/
def pyTruthy : PyVal → Bool
  | .none => false
  | .bool b => b
  | .int n => n ≠ 0
  | .str s => s ≠ ""
  | .list xs => !xs.isEmpty
  | .dict e => !e.isEmpty

/-- Python `type(v).__name__` for the embedded value shapes. -/
def pyTypeName : PyVal → String
  | .none => "NoneType"
  | .bool _ => "bool"
  | .int _ => "int"
  | .str _ => "str"
  | .list _ => "list"
  | .dict _ => "dict"

/-- Python `repr` of a type name: the name wrapped in single quotes
(built from the character code to keep the file ASCII-plain). -/
def pyReprTypeName (v : PyVal) : String :=
  let q := String.singleton (Char.ofNat 39)
  q ++ pyTypeName v ++ q

mutual

/-- `remove_empty_values` from models.py, acting on the value:
recursively prune dict entries whose value is `None`, `""`, or a dict
that became empty after pruning.  Lists (even empty ones), booleans and
numbers are kept untouched, exactly as in the source. -/
def removeEmptyValues : PyVal → PyVal
  | .dict e => .dict (remEntries e)
  | v => v

/-- The entry-level loop of `remove_empty_values`. -/
def remEntries : Entries → Entries
  | [] => []
  | (k, v) :: rest =>
      match v with
      | .dict inner =>
          let inner2 := remEntries inner
          if inner2.isEmpty then remEntries rest
          else (k, .dict inner2) :: remEntries rest
      | .none => remEntries rest
      | .str s => if s = "" then remEntries rest else (k, .str s) :: remEntries rest
      | w => (k, w) :: remEntries rest

end

/-- Digit run of Python `int(str)` after the first digit: decimal digits
with single underscores allowed between digits. -/
def parseDigitsCore : Nat → List Char → Option Nat
  | acc, [] => some acc
  | acc, c :: rest =>
      if c = Char.ofNat 95 then
        match rest with
        | c2 :: rest2 =>
            if c2.isDigit then parseDigitsCore (acc * 10 + (c2.toNat - 48)) rest2
            else Option.none
        | [] => Option.none
      else if c.isDigit then parseDigitsCore (acc * 10 + (c.toNat - 48)) rest
      else Option.none

/-- An unsigned decimal integer as accepted by Python `int(str)`
(ASCII digits, internal single underscores). -/
def parsePyNat : List Char → Option Nat
  | [] => Option.none
  | c :: rest => if c.isDigit then parseDigitsCore (c.toNat - 48) rest else Option.none

/-- Python `int(s)` for a string `s`: strip surrounding whitespace, then an
optional sign and a digit run.  Unicode digits and the rarer whitespace
code points are not modelled; all inputs in this development are ASCII. -/
def parsePyInt (s : String) : Option Int :=
  let cs := (s.toList.dropWhile Char.isWhitespace).reverse.dropWhile Char.isWhitespace
    |>.reverse
  match cs with
  | '+' :: rest => (parsePyNat rest).map Int.ofNat
  | '-' :: rest => (parsePyNat rest).map (fun n => -(n : Int))
  | rest => (parsePyNat rest).map Int.ofNat

/-- Python `int(v)` on the value shapes the library can encounter:
ints pass through, bools coerce, strings parse (`ValueError` on failure),
everything else is a `TypeError`. -/
def pyToInt : PyVal → Except PErr Int
  | .int n => .ok n
  | .bool b => .ok (if b then 1 else 0)
  | .str s =>
      match parsePyInt s with
      | some n => .ok n
      | Option.none =>
          .error (.valueError ("invalid literal for int() with base 10: " ++ s))
  | v => .error (.typeError ("int() argument must be a string, not " ++ pyTypeName v))

/-- Split a char list at the first occurrence of `c`; `none` if absent. -/
def splitAtFirst (c : Char) : List Char → Option (List Char × List Char)
  | [] => Option.none
  | x :: rest =>
      if x = c then some ([], rest)
      else (splitAtFirst c rest).map (fun p => (x :: p.1, p.2))

/-- Python `s.split(":", 1)` when it yields two parts; `none` when the
string has no colon (so tuple unpacking would raise `ValueError`). -/
def pySplitColon1 (s : String) : Option (String × String) :=
  (splitAtFirst ':' s.toList).map (fun p => (String.mk p.1, String.mk p.2))

/-! ### Hash (models.py) -/

/-- The `Hash` dataclass: an algorithm name / digest value pair.  The
field validators guarantee both fields are strings, so the structure
stores `String`s. -/
structure Hash where
  name : String
  value : String
deriving DecidableEq, Repr

/-- `Hash.validate_name`: the value must be a string (else `ValueError`);
it is returned unchanged (here as its string payload). -/
def Hash.validate_name : PyVal → Except PErr String
  | .str s => .ok s
  | _ => .error (.valueError "Hash.name must be a string")

/-- `Hash.validate_value`: the value must be a string (else `ValueError`). -/
def Hash.validate_value : PyVal → Except PErr String
  | .str s => .ok s
  | _ => .error (.valueError "Hash.value must be a string")

/-- `Hash(name, value)`: dataclass construction; `__post_init__` runs the
two validators in field-declaration order. -/
def mkHash (nameArg valueArg : PyVal) : Except PErr Hash := do
  let n ← Hash.validate_name nameArg
  let v ← Hash.validate_value valueArg
  .ok ⟨n, v⟩

/-- An argument that may or may not be a `Hash` instance, for modelling
`Hash.__eq__` against arbitrary Python values. -/
inductive PyAny where
  | hash (h : Hash) : PyAny
  | val (v : PyVal) : PyAny
deriving DecidableEq, Repr

/-- `Hash.__eq__`: comparing with a `Hash` compares only the `value`
fields; comparing with anything else raises `TypeError`. -/
def Hash.eqPy (h : Hash) : PyAny → Except PErr Bool
  | .hash other => .ok (h.value == other.value)
  | .val v => .error (.typeError ("cannot compare Hash with " ++ pyReprTypeName v))

/-- `Hash.from_dict`: try `value.items()` first (first entry of a dict;
empty dict raises `IndexError`); on `AttributeError` fall back to
`value.split(":", 1)` (missing colon raises `ValueError` at unpacking);
a value with neither attribute raises `AttributeError`. -/
def Hash.from_dict : PyVal → Except PErr Hash
  | .dict [] => .error (.indexError "list index out of range")
  | .dict ((k, x) :: _) => mkHash (.str k) x
  | .str s =>
      match pySplitColon1 s with
      | some p => mkHash (.str p.1) (.str p.2)
      | Option.none =>
          .error (.valueError "not enough values to unpack (expected 2, got 1)")
  | v => .error (.attributeError (pyReprTypeName v ++ " object has no attribute"))

/-- `Hash.from_line`: try `value.split(":", 1)` first; on
`AttributeError` (non-string) fall back to `value.items()`. -/
def Hash.from_line : PyVal → Except PErr Hash
  | .str s =>
      match pySplitColon1 s with
      | some p => mkHash (.str p.1) (.str p.2)
      | Option.none =>
          .error (.valueError "not enough values to unpack (expected 2, got 1)")
  | .dict [] => .error (.indexError "list index out of range")
  | .dict ((k, x) :: _) => mkHash (.str k) x
  | v => .error (.attributeError (pyReprTypeName v ++ " object has no attribute"))

/-- `Hash.as_line`: `"name:value"`. -/
def Hash.as_line (h : Hash) : String :=
  h.name ++ ":" ++ h.value

/-- `Hash.as_dict`: the one-entry mapping form. -/
def Hash.as_dict (h : Hash) : PyVal :=
  .dict [(h.name, .str h.value)]

/-- `dataclasses.asdict` applied to a `Hash`. -/
def Hash.asdict (h : Hash) : PyVal :=
  .dict [("name", .str h.name), ("value", .str h.value)]

/-- A single-quote string for reproducing Python error messages. -/
def sq : String := String.singleton (Char.ofNat 39)

/-! ### Source and SourceCollection (models.py) -/

/-- The `Source` dataclass.  Only `verify_ssl` has a validator (it must be
a boolean), so it is stored as `Bool`; `name` and `url` are stored raw. -/
structure Source where
  name : PyVal
  verify_ssl : Bool
  url : PyVal
deriving DecidableEq, Repr

/-- `Source.validate_verify_ssl`: must be a boolean, else `ValidationError`. -/
def Source.validate_verify_ssl : PyVal → Except PErr Bool
  | .bool b => .ok b
  | _ => .error (.validationError "verify_ssl: must be of boolean type")

/-- `Source(name, verify_ssl, url)` with its `__post_init__` validation. -/
def mkSource (nameArg verifySslArg urlArg : PyVal) : Except PErr Source := do
  let v ← Source.validate_verify_ssl verifySslArg
  .ok ⟨nameArg, v, urlArg⟩

/-- `Source(**d)`: keyword construction requires exactly the keys
`name`, `verify_ssl`, `url` (no defaults, no extras), else `TypeError`. -/
def Source.fromKwargs (e : Entries) : Except PErr Source :=
  if (dhas e "name" && dhas e "verify_ssl" && dhas e "url" &&
      e.all (fun kv => kv.1 == "name" || kv.1 == "verify_ssl" || kv.1 == "url")) then
    mkSource ((dlookup e "name").getD .none) ((dlookup e "verify_ssl").getD .none)
      ((dlookup e "url").getD .none)
  else .error (.typeError "unexpected or missing keyword argument for Source")

/-- `dataclasses.asdict` applied to a `Source` (canonical field order). -/
def Source.asdict (s : Source) : PyVal :=
  .dict [("name", s.name), ("verify_ssl", .bool s.verify_ssl), ("url", s.url)]

/-- The `SourceCollection` dataclass: an ordered list of `Source`. -/
structure SourceCollection where
  sources : List Source
deriving DecidableEq, Repr

/-- An element of the raw iterable handed to
`SourceCollection.validate_sources`: either a plain value or an
already-built `Source` instance. -/
inductive SrcInput where
  | raw (v : PyVal) : SrcInput
  | src (s : Source) : SrcInput
deriving DecidableEq, Repr

/-- `SourceCollection.validate_sources`: dict entries become
`Source(**v)`, `Source` instances are kept, anything else is silently
skipped. -/
def validateSources : List SrcInput → Except PErr (List Source)
  | [] => .ok []
  | .raw (.dict e) :: rest => do
      let s ← Source.fromKwargs e
      let r ← validateSources rest
      .ok (s :: r)
  | .src s :: rest => do
      let r ← validateSources rest
      .ok (s :: r)
  | .raw _ :: rest => validateSources rest

/-- `SourceCollection(value)` construction: run the validator hook. -/
def mkSourceCollection (xs : List SrcInput) : Except PErr SourceCollection := do
  let ss ← validateSources xs
  .ok ⟨ss⟩

/-- `SourceCollection._dump` (also `as_list`): `[asdict(s) for s in sources]`. -/
def SourceCollection.dump (sc : SourceCollection) : PyVal :=
  .list (sc.sources.map Source.asdict)

/-- `dataclasses.asdict` applied to a `SourceCollection`. -/
def SourceCollection.asdict (sc : SourceCollection) : PyVal :=
  .dict [("sources", .list (sc.sources.map Source.asdict))]

/-! ### PackageSpecfiers and Package (models.py) -/

/-- The `PackageSpecfiers` dataclass (spelling as in the source). -/
structure PackageSpecfiers where
  extras : PyVal
deriving DecidableEq, Repr

/-- `PackageSpecfiers.validate_extras`: raises `ValidationError` on a
non-list, and on a list falls off the end of the function, returning
Python `None`. -/
def PackageSpecfiers.validate_extras : PyVal → Except PErr PyVal
  | .list _ => .ok .none
  | _ => .error (.validationError "Extras must be a list")

/-- `PackageSpecfiers(extras)`: `__post_init__` stores the hook's return
value back into the field. -/
def mkPackageSpecfiers (extrasArg : PyVal) : Except PErr PackageSpecfiers := do
  let e ← PackageSpecfiers.validate_extras extrasArg
  .ok ⟨e⟩

/-- The `Package` dataclass.  `name` is always a string at every
construction site; the remaining fields carry raw values (only `version`
and `extras` have validators). -/
structure Package where
  name : String
  version : PyVal
  specifiers : PyVal
  editable : PyVal
  extras : PyVal
  path : PyVal
  sys_platform : PyVal
  hashes : PyVal
  markers : PyVal
  index : PyVal
deriving DecidableEq, Repr

/-- `Package.validate_extras`: `None` passes; a list of strings passes
(returned unchanged); anything else raises `ValidationError`. -/
def Package.validate_extras : PyVal → Except PErr PyVal
  | .none => .ok .none
  | .list xs =>
      if xs.all (fun x => match x with | .str _ => true | _ => false) then .ok (.list xs)
      else .error (.validationError "Extras must be a list or None")
  | _ => .error (.validationError "Extras must be a list or None")

/-- `Package.validate_version`: dicts and strings pass unchanged, `None`
becomes the string `"all"`, anything else raises `ValidationError`
(whose message embeds the class of the value). -/
def Package.validate_version : PyVal → Except PErr PyVal
  | .dict e => .ok (.dict e)
  | .str s => .ok (.str s)
  | .none => .ok (.str "all")
  | v => .error (.validationError ("Unknown type " ++ pyTypeName v ++ " for version"))

/-- `Package(name, version, ...)`: positional construction;
`__post_init__` runs `validate_version` then `validate_extras`
(field-declaration order). -/
def mkPackage (name : String)
    (version specifiers editable extras path sysPlatform hashes markers index : PyVal) :
    Except PErr Package := do
  let version ← Package.validate_version version
  let extras ← Package.validate_extras extras
  .ok ⟨name, version, specifiers, editable, extras, path, sysPlatform, hashes, markers, index⟩

/-- `Package(name=k, version=v)` with every other field defaulted. -/
def mkPackageNV (name : String) (version : PyVal) : Except PErr Package :=
  mkPackage name version .none .none .none .none .none .none .none .none

/-- The keyword parameters `Package(name=..., **spec)` accepts besides
`name`. -/
def pkgFieldNames : List String :=
  ["version", "specifiers", "editable", "extras", "path", "sys_platform",
   "hashes", "markers", "index"]

/-- `Package(name=name, **spec)`: every key of `spec` must be one of the
declared fields other than `name` (a `name` key would collide with the
explicit argument); `version` defaults to `"*"`, the rest to `None`. -/
def Package.fromKwargs (name : String) (e : Entries) : Except PErr Package :=
  if e.all (fun kv => pkgFieldNames.contains kv.1) then
    mkPackage name
      ((dlookup e "version").getD (.str "*"))
      ((dlookup e "specifiers").getD .none)
      ((dlookup e "editable").getD .none)
      ((dlookup e "extras").getD .none)
      ((dlookup e "path").getD .none)
      ((dlookup e "sys_platform").getD .none)
      ((dlookup e "hashes").getD .none)
      ((dlookup e "markers").getD .none)
      ((dlookup e "index").getD .none)
  else .error (.typeError "unexpected keyword argument for Package")

/-- `dataclasses.asdict` applied to a `Package`, as entries in
field-declaration order. -/
def Package.asdictEntries (p : Package) : Entries :=
  [("name", .str p.name), ("version", p.version), ("specifiers", p.specifiers),
   ("editable", p.editable), ("extras", p.extras), ("path", p.path),
   ("sys_platform", p.sys_platform), ("hashes", p.hashes), ("markers", p.markers),
   ("index", p.index)]

/-- The tail of `Package.as_dict` after the pruning step, on the pruned
entries `d`: if the surviving `version` is `"any"`, collapse to
`{self.name: "*"}`; otherwise pop `name` and wrap the rest under it.
A missing `version` or `name` key raises `KeyError`, as in Python. -/
def Package.encodePruned (p : Package) (d : Entries) : Except PErr PyVal :=
  match dlookup d "version" with
  | some v =>
      if v = .str "any" then .ok (.dict [(p.name, .str "*")])
      else
        match dpop d "name" with
        | some (.str n, d2) => .ok (.dict [(n, .dict d2)])
        | some (_, _) => .error (.typeError "unhashable dict key")
        | Option.none => .error (.keyError "name")
  | Option.none => .error (.keyError "version")

/-- `Package.as_dict`: prune empty values from `asdict(self)` with
`remove_empty_values`, then encode the pruned entries. -/
def Package.as_dict (p : Package) : Except PErr PyVal :=
  p.encodePruned (remEntries p.asdictEntries)

/-! ### PackageCollection (models.py) -/

/-- The `PackageCollection` dataclass: a name-keyed mapping of packages
in insertion order. -/
structure PackageCollection where
  packages : List (String × Package)
deriving DecidableEq, Repr

/-- One raw entry value handed to
`PackageCollection.validate_packages`: a plain value or an existing
`Package` instance. -/
inductive PkgSpec where
  | raw (v : PyVal) : PkgSpec
  | pkg (p : Package) : PkgSpec
deriving DecidableEq, Repr

/-- `PackageCollection.validate_packages` on a dict value: dict specs
become `Package(name=k, **v)`, the `"*"` shorthand becomes
`Package(name=k, version="any")`, other strings become
`Package(name=k, version=v)`, `Package` instances are kept, and anything
else raises `ValidationError`. -/
def validatePackages : List (String × PkgSpec) → Except PErr (List (String × Package))
  | [] => .ok []
  | (k, .raw (.dict e)) :: rest => do
      let p ← Package.fromKwargs k e
      let r ← validatePackages rest
      .ok ((k, p) :: r)
  | (k, .raw (.str s)) :: rest => do
      let p ← if s = "*" then mkPackageNV k (.str "any") else mkPackageNV k (.str s)
      let r ← validatePackages rest
      .ok ((k, p) :: r)
  | (k, .pkg p) :: rest => do
      let r ← validatePackages rest
      .ok ((k, p) :: r)
  | (k, .raw _) :: _ =>
      .error (.validationError ("Invalid package specifier " ++ k))

/-- `PackageCollection(packages=d)` for a dict argument: run the
validator hook. -/
def mkPackageCollection (xs : List (String × PkgSpec)) : Except PErr PackageCollection := do
  let ps ← validatePackages xs
  .ok ⟨ps⟩

/-- First-occurrence lookup among the packages. -/
def lookupPkg : List (String × Package) → String → Option Package
  | [], _ => Option.none
  | (k, p) :: rest, key => if k = key then some p else lookupPkg rest key

/-- `PackageCollection.__getitem__`: a missing name re-raises `KeyError`
with the message identifying the package. -/
def PackageCollection.getItem (pc : PackageCollection) (item : String) :
    Except PErr Package :=
  match lookupPkg pc.packages item with
  | some p => .ok p
  | Option.none => .error (.keyError ("Package " ++ item ++ " not found"))

/-- `dataclasses.asdict` applied to a `PackageCollection`. -/
def PackageCollection.asdict (pc : PackageCollection) : PyVal :=
  .dict [("packages",
    .dict (pc.packages.map (fun kv => (kv.1, .dict (Package.asdictEntries kv.2)))))]

/-- The loop of `PackageCollection._dump`: `d.update(p.as_dict())` for
each package. -/
def pcDumpLoop : Entries → List (String × Package) → Except PErr Entries
  | d, [] => .ok d
  | d, (_, p) :: rest => do
      let pd ← Package.as_dict p
      match pd with
      | .dict pde => pcDumpLoop (pde.foldl (fun acc kv => dset acc kv.1 kv.2) d) rest
      | _ => .error (.typeError "update expects a mapping")

/-- `PackageCollection._dump` (also `as_dict`). -/
def PackageCollection.dump (pc : PackageCollection) : Except PErr Entries :=
  pcDumpLoop [] pc.packages

/-! ### Requires (models.py) -/

/-- The `Requires` dataclass; both fields hold raw values. -/
structure Requires where
  python_version : PyVal
  python_full_version : PyVal
deriving DecidableEq, Repr

/-- The regex `^\d+\.\d+$` of `validate_python_version`: one-or-more
digits, a dot, one-or-more digits; `$` also matches just before one
trailing newline.  `\d` is modelled as the ASCII digits. -/
def reMatchXY (s : String) : Bool :=
  let cs := s.toList
  let cs := match cs.getLast? with
    | some c => if c = Char.ofNat 10 then cs.dropLast else cs
    | Option.none => cs
  match splitAtFirst (Char.ofNat 46) cs with
  | some p => (!p.1.isEmpty && p.1.all Char.isDigit) && (!p.2.isEmpty && p.2.all Char.isDigit)
  | Option.none => false

/-- `Requires.validate_python_version`: falsy values are returned
unchanged without any check; a truthy non-string raises `ValueError`;
a truthy string must match `^\d+\.\d+$` or `ValueError` is raised. -/
def Requires.validate_python_version (v : PyVal) : Except PErr PyVal :=
  if pyTruthy v = false then .ok v
  else match v with
    | .str s =>
        if reMatchXY s then .ok (.str s)
        else .error (.valueError
          ("python_version must be a string in the form " ++ sq ++ "X.Y" ++ sq))
    | _ => .error (.valueError "python_version must be a string")

/-- `Requires.validate_full_python_version`: `None` and strings pass,
anything else raises `ValueError`.  (Its name matches no declared field,
so the dispatch below never invokes it.) -/
def Requires.validate_full_python_version : PyVal → Except PErr PyVal
  | .none => .ok .none
  | .str s => .ok (.str s)
  | _ => .error (.valueError "python_version must be a string")

/-- The `getattr(self, "validate_" + name, None)` lookup for `Requires`:
the hooks that exist on the class, keyed by their method names. -/
def Requires.validatorFor (methodName : String) :
    Option (PyVal → Except PErr PyVal) :=
  if methodName = "validate_python_version" then some Requires.validate_python_version
  else if methodName = "validate_full_python_version" then
    some Requires.validate_full_python_version
  else Option.none

/-- `BaseModel.__post_init__` for one `Requires` field: run the hook
named `validate_<field>` if such a method exists, else keep the value. -/
def Requires.runHook (fieldName : String) (v : PyVal) : Except PErr PyVal :=
  match Requires.validatorFor ("validate_" ++ fieldName) with
  | some f => f v
  | Option.none => .ok v

/-- `Requires(python_version=..., python_full_version=...)` with the
name-driven hook dispatch over the declared fields. -/
def mkRequires (pythonVersionArg pythonFullVersionArg : PyVal) : Except PErr Requires := do
  let pv ← Requires.runHook "python_version" pythonVersionArg
  let pfv ← Requires.runHook "python_full_version" pythonFullVersionArg
  .ok ⟨pv, pfv⟩

/-- `Requires(**d)`: only the two declared field names are accepted as
keys; both default to `None`. -/
def Requires.fromKwargs (e : Entries) : Except PErr Requires :=
  if e.all (fun kv => kv.1 == "python_version" || kv.1 == "python_full_version") then
    mkRequires ((dlookup e "python_version").getD .none)
      ((dlookup e "python_full_version").getD .none)
  else .error (.typeError "unexpected keyword argument for Requires")

/-- `dataclasses.asdict` applied to a `Requires`. -/
def Requires.asdict (r : Requires) : PyVal :=
  .dict [("python_version", r.python_version),
         ("python_full_version", r.python_full_version)]

/-! ### Meta (models.py) -/

/-- The `Meta` dataclass.  `hash`, `requires` and `sources` are
normalized by their hooks into model objects; `pipfile_spec` is stored as
the raw accepted value. -/
structure Meta where
  hash : Hash
  pipfile_spec : PyVal
  requires : Requires
  sources : SourceCollection
deriving DecidableEq, Repr

/-- `Meta.validate_hash`: `Hash(**value)` when `value` is a dict with
exactly the keys `name` and `value`; any `TypeError` from that call
(wrong keys or a non-mapping) falls back to `Hash.from_line(value)`. -/
def Meta.validate_hash : PyVal → Except PErr Hash
  | .dict e =>
      if (dhas e "name" && dhas e "value" &&
          e.all (fun kv => kv.1 == "name" || kv.1 == "value")) then
        mkHash ((dlookup e "name").getD .none) ((dlookup e "value").getD .none)
      else Hash.from_line (.dict e)
  | v => Hash.from_line v

/-- `Meta.validate_requires`: `Requires(**value)`. -/
def Meta.validate_requires : PyVal → Except PErr Requires
  | .dict e => Requires.fromKwargs e
  | _ => .error (.typeError "argument after ** must be a mapping")

/-- `Meta.validate_sources`: `SourceCollection(value)`.  Iterating a list
feeds its elements to the hook; iterating a dict or a string yields
strings, which the hook silently skips; non-iterables raise `TypeError`. -/
def Meta.validate_sources : PyVal → Except PErr SourceCollection
  | .list xs => mkSourceCollection (xs.map SrcInput.raw)
  | .str _ => mkSourceCollection []
  | .dict _ => mkSourceCollection []
  | v => .error (.typeError (pyReprTypeName v ++ " object is not iterable"))

/-- `Meta.validate_pipfile_spec`: `int(value)` must equal 6, else
`ValueError`; the original value is stored unchanged. -/
def Meta.validate_pipfile_spec (v : PyVal) : Except PErr PyVal := do
  let n ← pyToInt v
  if n ≠ 6 then .error (.valueError "Only pipefile-spec version 6 is supported")
  else .ok v

/-- `Meta(hash=..., pipfile_spec=..., requires=..., sources=...)`:
hooks run in field-declaration order. -/
def mkMeta (hashArg pipfileSpecArg requiresArg sourcesArg : PyVal) : Except PErr Meta := do
  let h ← Meta.validate_hash hashArg
  let ps ← Meta.validate_pipfile_spec pipfileSpecArg
  let r ← Meta.validate_requires requiresArg
  let ss ← Meta.validate_sources sourcesArg
  .ok ⟨h, ps, r, ss⟩

/-- `Meta(**d)`: exactly the four declared field names are required
(none has a default). -/
def Meta.fromKwargs (e : Entries) : Except PErr Meta :=
  if (dhas e "hash" && dhas e "pipfile_spec" && dhas e "requires" && dhas e "sources" &&
      e.all (fun kv => kv.1 == "hash" || kv.1 == "pipfile_spec" ||
                       kv.1 == "requires" || kv.1 == "sources")) then
    mkMeta ((dlookup e "hash").getD .none) ((dlookup e "pipfile_spec").getD .none)
      ((dlookup e "requires").getD .none) ((dlookup e "sources").getD .none)
  else .error (.typeError "unexpected or missing keyword argument for Meta")

/-- `dataclasses.asdict` applied to a `Meta`. -/
def Meta.asdict (m : Meta) : PyVal :=
  .dict [("hash", m.hash.asdict), ("pipfile_spec", m.pipfile_spec),
         ("requires", m.requires.asdict), ("sources", m.sources.asdict)]

/-! ### Lockfile (lockfiles.py) -/

/-- The `Lockfile` dataclass: metadata plus the two package collections.
After construction `_meta` is always a `Meta` (the hook either returns
one or raises). -/
structure Lockfile where
  _meta : Meta
  default : PackageCollection
  develop : PackageCollection
deriving DecidableEq, Repr

/-- `Lockfile.validate_meta` (reached through `validate__meta`): unwrap a
nested `"_meta"` key if present, rename `pipfile-spec` to
`pipfile_spec`, then build `Meta(**value)`. -/
def Lockfile.validate_meta : PyVal → Except PErr Meta
  | .dict e =>
      let inner : PyVal :=
        match dlookup e "_meta" with
        | some v => v
        | Option.none => .dict e
      match inner with
      | .dict e2 =>
          let e3 :=
            match dpop e2 "pipfile-spec" with
            | some p => dset p.2 "pipfile_spec" p.1
            | Option.none => e2
          Meta.fromKwargs e3
      | v => .error (.typeError ("argument of type " ++ pyReprTypeName v ++
          " is not iterable"))
  | v => .error (.typeError ("argument of type " ++ pyReprTypeName v ++
      " is not iterable"))

/-- The shared loop of `Lockfile.validate_default` /
`Lockfile.validate_develop`: a plain string spec becomes
`{"version": spec}`, then `Package(name=name, **spec)`. -/
def buildPackagesFromSpecs : Entries → Except PErr (List (String × Package))
  | [] => .ok []
  | (name, spec) :: rest => do
      let p ← match spec with
        | .str s => Package.fromKwargs name [("version", .str s)]
        | .dict pe => Package.fromKwargs name pe
        | _ => .error (.typeError "argument after ** must be a mapping")
      let r ← buildPackagesFromSpecs rest
      .ok ((name, p) :: r)

/-- `Lockfile.validate_default`: `None` becomes an empty collection; a
dict of specs is normalized to `Package` objects and wrapped in a
`PackageCollection` (whose own constructor re-runs `validate_packages`,
a pass-through on `Package` instances). -/
def Lockfile.validate_default : PyVal → Except PErr PackageCollection
  | .none => mkPackageCollection []
  | .dict e => do
      let pkgs ← buildPackagesFromSpecs e
      mkPackageCollection (pkgs.map (fun kv => (kv.1, PkgSpec.pkg kv.2)))
  | v => .error (.attributeError (pyReprTypeName v ++ " object has no attribute items"))

/-- `Lockfile.validate_develop`: textually identical to
`validate_default` in the source. -/
def Lockfile.validate_develop : PyVal → Except PErr PackageCollection
  | .none => mkPackageCollection []
  | .dict e => do
      let pkgs ← buildPackagesFromSpecs e
      mkPackageCollection (pkgs.map (fun kv => (kv.1, PkgSpec.pkg kv.2)))
  | v => .error (.attributeError (pyReprTypeName v ++ " object has no attribute items"))

/-- `Lockfile(_meta=..., default=..., develop=...)`: hooks run in
field-declaration order (`validate__meta`, `validate_default`,
`validate_develop`); the trailing `self.meta = self._meta` assignment is
the identity on the stored metadata. -/
def mkLockfile (metaArg defaultArg developArg : PyVal) : Except PErr Lockfile := do
  let m ← Lockfile.validate_meta metaArg
  let d ← Lockfile.validate_default defaultArg
  let dv ← Lockfile.validate_develop developArg
  .ok ⟨m, d, dv⟩

/-- `Lockfile(**data)` as performed by `Lockfile.load` on parsed JSON:
exactly the three declared field names are required. -/
def Lockfile.fromKwargs (e : Entries) : Except PErr Lockfile :=
  if (dhas e "_meta" && dhas e "default" && dhas e "develop" &&
      e.all (fun kv => kv.1 == "_meta" || kv.1 == "default" || kv.1 == "develop")) then
    mkLockfile ((dlookup e "_meta").getD .none) ((dlookup e "default").getD .none)
      ((dlookup e "develop").getD .none)
  else .error (.typeError "unexpected or missing keyword argument for Lockfile")

/-- `dataclasses.asdict` applied to a `Lockfile`, as top-level entries. -/
def Lockfile.asdictEntries (lf : Lockfile) : Entries :=
  [("_meta", Meta.asdict lf._meta),
   ("default", lf.default.asdict),
   ("develop", lf.develop.asdict)]

/-! ### The encode path (lockfiles.py, `DCJSONEncoder` and helpers) -/

/-- `packages_to_dict`: for each package entry keep only its truthy
values (Python truthiness, so `False`, `0`, empty lists also drop here),
then pop the redundant `name` key (`KeyError` if it is gone). -/
def packagesToDict : Entries → Except PErr Entries
  | [] => .ok []
  | (name, .dict pkv) :: rest => do
      let values := pkv.filter (fun kv => pyTruthy kv.2)
      match dpop values "name" with
      | some p => do
          let r ← packagesToDict rest
          .ok ((name, .dict p.2) :: r)
      | Option.none => .error (.keyError "name")
  | (_, _) :: _ => .error (.attributeError "items")

/-- The `if "_meta" in o:` block of `DCJSONEncoder.default`: rename
`pipfile_spec` to `pipfile-spec` (pop then insert, so the key moves to
the end), collapse the hash sub-dict to `{name: value}`, and collapse
the sources sub-dict to the bare list. -/
def reshapeMeta (o : Entries) : Except PErr Entries :=
  if dhas o "_meta" then
    match dlookup o "_meta" with
    | some (.dict me0) => do
        let me1 ← match dpop me0 "pipfile_spec" with
          | some p => Except.ok (dset p.2 "pipfile-spec" p.1)
          | Option.none => Except.error (PErr.keyError "pipfile_spec")
        let me2 ← match dlookup me1 "hash" with
          | some (.dict he) =>
              (match dlookup he "name", dlookup he "value" with
               | some (.str n), some hv =>
                   Except.ok (dset me1 "hash" (PyVal.dict [(n, hv)]))
               | some _, some _ => Except.error (PErr.typeError "non-string hash name")
               | _, _ => Except.error (PErr.keyError "name or value"))
          | some _ => Except.error (PErr.typeError "hash value is not subscriptable")
          | Option.none => Except.error (PErr.keyError "hash")
        let me3 ← match dlookup me2 "sources" with
          | some (.dict se) =>
              (match dpop se "sources" with
               | some p => Except.ok (dset me2 "sources" p.1)
               | Option.none => Except.error (PErr.keyError "sources"))
          | some _ => Except.error (PErr.attributeError "pop")
          | Option.none => Except.error (PErr.keyError "sources")
        Except.ok (dset o "_meta" (.dict me3))
    | some _ => Except.error (PErr.typeError "_meta is not subscriptable")
    | Option.none => Except.error (PErr.keyError "_meta")
  else Except.ok o

/-- One `if key in o: o[key] = packages_to_dict(o[key]["packages"])`
step of the encoder (used for `default` and `develop`). -/
def collapsePackages (o : Entries) (key : String) : Except PErr Entries :=
  if dhas o key then
    match dlookup o key with
    | some (.dict de) =>
        (match dlookup de "packages" with
         | some (.dict pe) => do
             let pd ← packagesToDict pe
             Except.ok (dset o key (PyVal.dict pd))
         | some _ => Except.error (PErr.attributeError "items")
         | Option.none => Except.error (PErr.keyError "packages"))
    | some _ => Except.error (PErr.typeError "value is not subscriptable")
    | Option.none => Except.error (PErr.keyError key)
  else Except.ok o

/-- The final `if "requires" not in o["_meta"]` fix-up of the encoder. -/
def ensureRequires (o : Entries) : Except PErr Entries :=
  match dlookup o "_meta" with
  | some (.dict me) =>
      if dhas me "requires" then Except.ok o
      else Except.ok (dset o "_meta" (.dict (dset me "requires" (.dict []))))
  | some _ => Except.error (PErr.typeError "_meta is not subscriptable")
  | Option.none => Except.error (PErr.keyError "_meta")

/-- `DCJSONEncoder.default` applied to a `Lockfile` (the only object
`Lockfile.dump` hands it): structural dump, metadata reshape, recursive
pruning of empty values, package-collection collapse, and the two
format-stability defaults for `develop` and `_meta["requires"]`. -/
def dcjsonDefault (lf : Lockfile) : Except PErr PyVal := do
  let o0 := lf.asdictEntries
  let o1 ← reshapeMeta o0
  let o2 := remEntries o1
  let o3 ← collapsePackages o2 "default"
  let o4 ← collapsePackages o3 "develop"
  let o5 := if dhas o4 "develop" then o4 else dset o4 "develop" (.dict [])
  let o6 ← ensureRequires o5
  .ok (.dict o6)

/-! ### Lemmas about the dict operations and the pruning pass -/

theorem exceptBindOk {α β : Type} {x : Except PErr α} {f : α → Except PErr β} {b : β}
    (h : (x >>= f) = .ok b) : ∃ a, x = .ok a ∧ f a = .ok b := by
  cases x with
  | ok a => exact ⟨a, rfl, h⟩
  | error e => simp [Bind.bind, Except.bind] at h

theorem dlookup_dset_self (e : Entries) (k : String) (v : PyVal) :
    dlookup (dset e k v) k = some v := by
  induction e with
  | nil => simp [dset, dlookup]
  | cons kv rest ih =>
      obtain ⟨k2, w⟩ := kv
      by_cases hk : k2 = k
      · simp [dset, hk, dlookup]
      · simp [dset, hk, dlookup, ih]

theorem dlookup_dset_ne (e : Entries) (k k2 : String) (v : PyVal) (h : k2 ≠ k) :
    dlookup (dset e k v) k2 = dlookup e k2 := by
  induction e with
  | nil =>
      have hne : ¬ k = k2 := fun hh => h hh.symm
      simp [dset, dlookup, hne]
  | cons kv rest ih =>
      obtain ⟨k3, w⟩ := kv
      by_cases hk : k3 = k
      · subst hk
        have hne : ¬ k3 = k2 := fun hh => h hh.symm
        simp [dset, dlookup, hne]
      · simp only [dset, if_neg hk]
        by_cases hk2 : k3 = k2
        · simp [dlookup, hk2]
        · simp [dlookup, hk2, ih]

theorem dhas_dset_ne (e : Entries) (k k2 : String) (v : PyVal) (h : k2 ≠ k) :
    dhas (dset e k v) k2 = dhas e k2 := by
  simp [dhas, dlookup_dset_ne e k k2 v h]

/-- Whether `remove_empty_values` keeps a dict entry holding `v`. -/
def keeps : PyVal → Bool
  | .none => false
  | .str s => s ≠ ""
  | .dict e => !(remEntries e).isEmpty
  | _ => true

theorem remEntries_cons (k : String) (v : PyVal) (rest : Entries) :
    remEntries ((k, v) :: rest) =
      if keeps v then
        (k, match v with | .dict inner => .dict (remEntries inner) | w => w) :: remEntries rest
      else remEntries rest := by
  cases v with
  | dict inner =>
      simp only [remEntries, keeps, Bool.not_eq_true']
      by_cases he : (remEntries inner).isEmpty
      · simp [he]
      · simp [he]
  | none => simp [remEntries, keeps]
  | str s =>
      by_cases hs : s = ""
      · simp [remEntries, keeps, hs]
      · simp [remEntries, keeps, hs]
  | bool b => simp [remEntries, keeps]
  | int n => simp [remEntries, keeps]
  | list xs => simp [remEntries, keeps]

/-- Pruning never invents a key: if every entry of `e` carrying `key` is
pruned away, `key` is absent from the result. -/
theorem dlookup_remEntries_none (e : Entries) (key : String)
    (h : ∀ kv ∈ e, kv.1 = key → keeps kv.2 = false) :
    dlookup (remEntries e) key = Option.none := by
  induction e with
  | nil => simp [remEntries, dlookup]
  | cons kv rest ih =>
      obtain ⟨k, v⟩ := kv
      rw [remEntries_cons]
      by_cases hkeep : keeps v = true
      · have hk : k ≠ key := by
          intro hkk
          have := h (k, v) (List.mem_cons_self _ _) hkk
          rw [hkeep] at this
          exact Bool.true_eq_false.mp this
        simp only [hkeep, if_true]
        rw [dlookup]
        simp only [hk, if_false]
        exact ih (fun kv2 hm => h kv2 (List.mem_cons_of_mem _ hm))
      · simp only [Bool.not_eq_true] at hkeep
        simp only [hkeep, Bool.false_eq_true, if_false]
        exact ih (fun kv2 hm => h kv2 (List.mem_cons_of_mem _ hm))

/-- A list-valued entry always survives pruning, so the pruned dict is
nonempty. -/
theorem remEntries_ne_nil_of_list (e : Entries) (k : String) (xs : List PyVal)
    (h : (k, PyVal.list xs) ∈ e) : remEntries e ≠ [] := by
  induction e with
  | nil => cases h
  | cons kv rest ih =>
      obtain ⟨k2, v⟩ := kv
      rcases List.mem_cons.mp h with heq | hmem
      · obtain ⟨rfl, rfl⟩ := Prod.mk.injEq .. ▸ heq
        simp [remEntries_cons, keeps]
      · rw [remEntries_cons]
        by_cases hkeep : keeps v = true
        · simp [hkeep]
        · simp only [Bool.not_eq_true] at hkeep
          simp only [hkeep, Bool.false_eq_true, if_false]
          exact ih hmem

/-- A successful `collapsePackages` step leaves every other key alone. -/
theorem collapsePackages_preserves (o o2 : Entries) (key k2 : String)
    (h : collapsePackages o key = .ok o2) (hne : k2 ≠ key) :
    dlookup o2 k2 = dlookup o k2 := by
  unfold collapsePackages at h
  by_cases hhas : dhas o key
  · rw [if_pos hhas] at h
    cases hl : dlookup o key with
    | none => rw [hl] at h; cases h
    | some v =>
        rw [hl] at h
        cases v with
        | dict de =>
            cases hp : dlookup de "packages" with
            | none => simp [hp] at h
            | some pv =>
                cases pv with
                | dict pe =>
                    simp only [hp] at h
                    rcases exceptBindOk h with ⟨pd, _, hok⟩
                    cases hok
                    exact dlookup_dset_ne o key k2 _ hne
                | none => simp [hp] at h
                | bool b => simp [hp] at h
                | int n => simp [hp] at h
                | str s => simp [hp] at h
                | list xs => simp [hp] at h
        | none => cases h
        | bool b => cases h
        | int n => cases h
        | str s => cases h
        | list xs => cases h
  · rw [if_neg hhas] at h
    cases h
    rfl

/-- A successful `ensureRequires` always leaves a `_meta` dict holding a
`requires` key. -/
theorem ensureRequires_ok (o o2 : Entries) (h : ensureRequires o = .ok o2) :
    ∃ me, dlookup o2 "_meta" = some (.dict me) ∧ ∃ r, dlookup me "requires" = some r := by
  unfold ensureRequires at h
  split at h
  next me heq =>
    split at h
    next hr =>
      cases h
      unfold dhas at hr
      obtain ⟨r, hrr⟩ := Option.isSome_iff_exists.mp hr
      exact ⟨me, heq, r, hrr⟩
    next hr =>
      cases h
      exact ⟨dset me "requires" (.dict []), dlookup_dset_self o "_meta" _,
        .dict [], dlookup_dset_self me "requires" _⟩
  next => cases h
  next => cases h

/-- `ensureRequires` touches only the `_meta` key. -/
theorem ensureRequires_preserves (o o2 : Entries) (k2 : String)
    (h : ensureRequires o = .ok o2) (hne : k2 ≠ "_meta") :
    dlookup o2 k2 = dlookup o k2 := by
  unfold ensureRequires at h
  split at h
  next me heq =>
    split at h
    next hr =>
      cases h
      rfl
    next hr =>
      cases h
      exact dlookup_dset_ne o "_meta" k2 _ hne
  next => cases h
  next => cases h

/-- `collapsePackages` is the identity when the key is absent. -/
theorem collapsePackages_nokey (o : Entries) (key : String) (h : dhas o key = false) :
    collapsePackages o key = .ok o := by
  unfold collapsePackages
  rw [h]
  simp

/-- The metadata reshape on the structural dump of any `Lockfile`,
computed: `pipfile_spec` moves to the end under its on-disk spelling,
the hash collapses to a one-entry mapping, and the sources wrapper
collapses to the bare list. -/
theorem reshapeMeta_asdict (lf : Lockfile) :
    reshapeMeta lf.asdictEntries = .ok
      [("_meta", .dict
          [("hash", .dict [(lf._meta.hash.name, .str lf._meta.hash.value)]),
           ("requires", Requires.asdict lf._meta.requires),
           ("sources", .list (lf._meta.sources.sources.map Source.asdict)),
           ("pipfile-spec", lf._meta.pipfile_spec)]),
       ("default", lf.default.asdict),
       ("develop", lf.develop.asdict)] := by
  rfl

/-- C2: encoding any Lockfile always leaves a `develop` key in the output
(`{}` when there are no dev packages) and a `requires` key inside the
`_meta` object (`{}` when the requirements are empty), even though the
encoder recursively prunes every other empty / `None` / empty-string
field via `remove_empty_values`. -/
theorem c2_develop_and_requires_always_present (lf : Lockfile) (o : Entries)
    (h : dcjsonDefault lf = .ok (.dict o)) :
    (∃ v, dlookup o "develop" = some v) ∧
    (∃ me, dlookup o "_meta" = some (.dict me) ∧ ∃ r, dlookup me "requires" = some r) ∧
    (lf.develop.packages = [] → dlookup o "develop" = some (.dict [])) ∧
    (lf._meta.requires.python_version = .none ∧
     lf._meta.requires.python_full_version = .none →
      ∃ me, dlookup o "_meta" = some (.dict me) ∧
        dlookup me "requires" = some (.dict [])) := by
  unfold dcjsonDefault at h
  rcases exceptBindOk h with ⟨o1, h1, h⟩
  rcases exceptBindOk h with ⟨o3, h3, h⟩
  rcases exceptBindOk h with ⟨o4, h4, h⟩
  rcases exceptBindOk h with ⟨o6, h6, hfin⟩
  injection hfin with hfin2
  injection hfin2 with hfin3
  subst hfin3
  rw [reshapeMeta_asdict lf] at h1
  injection h1 with h1eq
  subst h1eq
  refine ⟨?_, ensureRequires_ok _ _ h6, ?_, ?_⟩
  · -- develop is present in the final output
    have hdev5 : ∃ v,
        dlookup (if dhas o4 "develop" = true then o4
                 else dset o4 "develop" (.dict [])) "develop" = some v := by
      by_cases hd : dhas o4 "develop" = true
      · rw [if_pos hd]
        unfold dhas at hd
        exact Option.isSome_iff_exists.mp hd
      · rw [if_neg hd]
        exact ⟨.dict [], dlookup_dset_self o4 "develop" (.dict [])⟩
    obtain ⟨v, hv⟩ := hdev5
    refine ⟨v, ?_⟩
    rw [ensureRequires_preserves _ _ "develop" h6 (by decide)]
    exact hv
  · -- develop is exactly {} when there are no dev packages
    intro hdevnil
    have hdva : lf.develop.asdict = .dict [("packages", .dict [])] := by
      unfold PackageCollection.asdict
      rw [hdevnil]
      rfl
    have hnone2 : dlookup (remEntries
        [("_meta", PyVal.dict
            [("hash", .dict [(lf._meta.hash.name, .str lf._meta.hash.value)]),
             ("requires", Requires.asdict lf._meta.requires),
             ("sources", .list (lf._meta.sources.sources.map Source.asdict)),
             ("pipfile-spec", lf._meta.pipfile_spec)]),
         ("default", lf.default.asdict),
         ("develop", lf.develop.asdict)]) "develop" = Option.none := by
      apply dlookup_remEntries_none
      intro kv hm hk
      simp only [List.mem_cons, List.not_mem_nil, or_false] at hm
      rcases hm with rfl | rfl | rfl
      · simp at hk
      · simp at hk
      · rw [hdva]
        simp [keeps, remEntries]
    have hnone3 : dlookup o3 "develop" = Option.none := by
      rw [collapsePackages_preserves _ _ "default" "develop" h3 (by decide)]
      exact hnone2
    have h4e : o3 = o4 := by
      have hid := collapsePackages_nokey o3 "develop" (by unfold dhas; rw [hnone3]; rfl)
      rw [hid] at h4
      injection h4
    have hd4 : dhas o4 "develop" = false := by
      rw [← h4e]
      unfold dhas
      rw [hnone3]
      rfl
    rw [ensureRequires_preserves _ _ "develop" h6 (by decide)]
    rw [hd4]
    simp only [Bool.false_eq_true, if_false]
    exact dlookup_dset_self o4 "develop" (.dict [])
  · -- requires is exactly {} when the requirements are empty
    rintro ⟨hpv, hpfv⟩
    have hra : Requires.asdict lf._meta.requires =
        .dict [("python_version", .none), ("python_full_version", .none)] := by
      unfold Requires.asdict
      rw [hpv, hpfv]
    have hMEne : remEntries
        [("hash", PyVal.dict [(lf._meta.hash.name, .str lf._meta.hash.value)]),
         ("requires", Requires.asdict lf._meta.requires),
         ("sources", .list (lf._meta.sources.sources.map Source.asdict)),
         ("pipfile-spec", lf._meta.pipfile_spec)] ≠ [] := by
      apply remEntries_ne_nil_of_list _ "sources"
        (lf._meta.sources.sources.map Source.asdict)
      simp [List.mem_cons]
    have hometa2 : dlookup (remEntries
        [("_meta", PyVal.dict
            [("hash", .dict [(lf._meta.hash.name, .str lf._meta.hash.value)]),
             ("requires", Requires.asdict lf._meta.requires),
             ("sources", .list (lf._meta.sources.sources.map Source.asdict)),
             ("pipfile-spec", lf._meta.pipfile_spec)]),
         ("default", lf.default.asdict),
         ("develop", lf.develop.asdict)]) "_meta" = some (.dict (remEntries
        [("hash", PyVal.dict [(lf._meta.hash.name, .str lf._meta.hash.value)]),
         ("requires", Requires.asdict lf._meta.requires),
         ("sources", .list (lf._meta.sources.sources.map Source.asdict)),
         ("pipfile-spec", lf._meta.pipfile_spec)])) := by
      rw [remEntries_cons]
      have hk : keeps (PyVal.dict
          [("hash", PyVal.dict [(lf._meta.hash.name, .str lf._meta.hash.value)]),
           ("requires", Requires.asdict lf._meta.requires),
           ("sources", .list (lf._meta.sources.sources.map Source.asdict)),
           ("pipfile-spec", lf._meta.pipfile_spec)]) = true := by
        cases hre : remEntries
            [("hash", PyVal.dict [(lf._meta.hash.name, .str lf._meta.hash.value)]),
             ("requires", Requires.asdict lf._meta.requires),
             ("sources", .list (lf._meta.sources.sources.map Source.asdict)),
             ("pipfile-spec", lf._meta.pipfile_spec)] with
        | nil => exact absurd hre hMEne
        | cons a l => simp [keeps, hre]
      rw [hk]
      simp [dlookup]
    have hreqnone : dlookup (remEntries
        [("hash", PyVal.dict [(lf._meta.hash.name, .str lf._meta.hash.value)]),
         ("requires", Requires.asdict lf._meta.requires),
         ("sources", .list (lf._meta.sources.sources.map Source.asdict)),
         ("pipfile-spec", lf._meta.pipfile_spec)]) "requires" = Option.none := by
      apply dlookup_remEntries_none
      intro kv hm hk
      simp only [List.mem_cons, List.not_mem_nil, or_false] at hm
      rcases hm with rfl | rfl | rfl | rfl
      · simp at hk
      · rw [hra]
        simp [keeps, remEntries]
      · simp at hk
      · simp at hk
    have hometa4 : dlookup o4 "_meta" = some (.dict (remEntries
        [("hash", PyVal.dict [(lf._meta.hash.name, .str lf._meta.hash.value)]),
         ("requires", Requires.asdict lf._meta.requires),
         ("sources", .list (lf._meta.sources.sources.map Source.asdict)),
         ("pipfile-spec", lf._meta.pipfile_spec)])) := by
      rw [collapsePackages_preserves _ _ "develop" "_meta" h4 (by decide)]
      rw [collapsePackages_preserves _ _ "default" "_meta" h3 (by decide)]
      exact hometa2
    have hometa5 : dlookup (if dhas o4 "develop" = true then o4
        else dset o4 "develop" (.dict [])) "_meta" = some (.dict (remEntries
        [("hash", PyVal.dict [(lf._meta.hash.name, .str lf._meta.hash.value)]),
         ("requires", Requires.asdict lf._meta.requires),
         ("sources", .list (lf._meta.sources.sources.map Source.asdict)),
         ("pipfile-spec", lf._meta.pipfile_spec)])) := by
      by_cases hd : dhas o4 "develop" = true
      · rw [if_pos hd]
        exact hometa4
      · rw [if_neg hd]
        rw [dlookup_dset_ne _ "develop" "_meta" _ (by decide)]
        exact hometa4
    unfold ensureRequires at h6
    split at h6
    next me heq =>
      rw [hometa5] at heq
      injection heq with heq2
      injection heq2 with heq3
      split at h6
      next hr =>
        rw [← heq3] at hr
        unfold dhas at hr
        rw [hreqnone] at hr
        cases hr
      next hr =>
        cases h6
        refine ⟨dset me "requires" (.dict []), dlookup_dset_self _ "_meta" _, ?_⟩
        exact dlookup_dset_self me "requires" (.dict [])
    next => cases h6
    next => cases h6

/-- Rewriting helper: binding a successful `Except` just applies the
continuation. -/
theorem except_ok_bind {A B : Type} (a : A) (f : A → Except PErr B) :
    (Except.ok a >>= f) = f a := rfl

/-- A concrete decoded lockfile (hash `sha256:deadbeef`, spec 6, empty
requirements, one source, `requests: "*"` in default, no dev packages),
used to exhibit the encoder guarantees on a closed input. -/
def c2SampleLockfile : Lockfile :=
  ⟨⟨⟨"sha256", "deadbeef"⟩, .int 6, ⟨.none, .none⟩,
    ⟨[⟨.str "pypi", true, .str "https://pypi.org/simple"⟩]⟩⟩,
   ⟨[("requests",
      ⟨"requests", .str "*", .none, .none, .none, .none, .none, .none, .none, .none⟩)]⟩,
   ⟨[]⟩⟩

/-- The sample's structural dump after the metadata reshape. -/
def c2Reshaped : Entries :=
  [("_meta", .dict [("hash", .dict [("sha256", .str "deadbeef")]),
                    ("requires", .dict [("python_version", PyVal.none),
                                        ("python_full_version", PyVal.none)]),
                    ("sources", .list [.dict [("name", .str "pypi"),
                                              ("verify_ssl", .bool true),
                                              ("url", .str "https://pypi.org/simple")]]),
                    ("pipfile-spec", .int 6)]),
   ("default", .dict [("packages", .dict [("requests", .dict
      [("name", .str "requests"), ("version", .str "*"), ("specifiers", PyVal.none),
       ("editable", PyVal.none), ("extras", PyVal.none), ("path", PyVal.none),
       ("sys_platform", PyVal.none), ("hashes", PyVal.none), ("markers", PyVal.none),
       ("index", PyVal.none)])])]),
   ("develop", .dict [("packages", .dict [])])]

/-- The sample after `remove_empty_values`. -/
def c2Pruned : Entries :=
  [("_meta", .dict [("hash", .dict [("sha256", .str "deadbeef")]),
                    ("sources", .list [.dict [("name", .str "pypi"),
                                              ("verify_ssl", .bool true),
                                              ("url", .str "https://pypi.org/simple")]]),
                    ("pipfile-spec", .int 6)]),
   ("default", .dict [("packages", .dict [("requests", .dict
      [("name", .str "requests"), ("version", .str "*")])])])]

/-- The sample's final encoder output. -/
def c2Out : Entries :=
  [("_meta", .dict [("hash", .dict [("sha256", .str "deadbeef")]),
                    ("sources", .list [.dict [("name", .str "pypi"),
                                              ("verify_ssl", .bool true),
                                              ("url", .str "https://pypi.org/simple")]]),
                    ("pipfile-spec", .int 6),
                    ("requires", .dict [])]),
   ("default", .dict [("requests", .dict [("version", .str "*")])]),
   ("develop", .dict [])]

/-- The encoder pipeline after the pruning step. -/
def c2Rest (o2 : Entries) : Except PErr PyVal := do
  let o3 ← collapsePackages o2 "default"
  let o4 ← collapsePackages o3 "develop"
  let o5 := if dhas o4 "develop" then o4 else dset o4 "develop" (.dict [])
  let o6 ← ensureRequires o5
  .ok (.dict o6)

theorem c2Stage1 : reshapeMeta (Lockfile.asdictEntries c2SampleLockfile) =
    Except.ok c2Reshaped := rfl

theorem c2Stage2 : remEntries c2Reshaped = c2Pruned := by
  simp [remEntries, c2Reshaped, c2Pruned]

theorem c2StageRest : c2Rest c2Pruned = Except.ok (.dict c2Out) := rfl

theorem c2Split : dcjsonDefault c2SampleLockfile =
    (reshapeMeta (Lockfile.asdictEntries c2SampleLockfile) >>=
      fun o1 => c2Rest (remEntries o1)) := rfl

theorem c2SampleEncodes : dcjsonDefault c2SampleLockfile = Except.ok (.dict c2Out) := by
  rw [c2Split, c2Stage1, except_ok_bind]
  show c2Rest (remEntries c2Reshaped) = Except.ok (.dict c2Out)
  rw [c2Stage2]
  exact c2StageRest

/-- C2 witness: the guarantees instantiated on the concrete sample
lockfile (its `develop` is empty and its requirements are empty, so both
forced defaults are exercised). -/
theorem c2_develop_and_requires_always_present_witness :
    (∃ v, dlookup c2Out "develop" = some v) ∧
    (∃ me, dlookup c2Out "_meta" = some (.dict me) ∧ ∃ r, dlookup me "requires" = some r) ∧
    dlookup c2Out "develop" = some (.dict []) ∧
    (∃ me, dlookup c2Out "_meta" = some (.dict me) ∧
      dlookup me "requires" = some (.dict [])) := by
  have h := c2_develop_and_requires_always_present c2SampleLockfile c2Out c2SampleEncodes
  exact ⟨h.1, h.2.1, h.2.2.1 rfl, h.2.2.2 ⟨rfl, rfl⟩⟩

/-- C4: `Hash.from_dict` on the one-entry mapping, `Hash.from_line` on
the colon form, and keyword construction all yield the same `Hash`,
which compares equal to itself under `Hash.__eq__` and produces the same
`as_dict` and `as_line` encodings. -/
theorem c4_hash_shape_equivalence :
    Hash.from_dict (.dict [("sha256", .str "abc")]) = .ok ⟨"sha256", "abc"⟩ ∧
    Hash.from_line (.str "sha256:abc") = .ok ⟨"sha256", "abc"⟩ ∧
    mkHash (.str "sha256") (.str "abc") = .ok ⟨"sha256", "abc"⟩ ∧
    Hash.eqPy ⟨"sha256", "abc"⟩ (.hash ⟨"sha256", "abc"⟩) = .ok true ∧
    Hash.as_dict ⟨"sha256", "abc"⟩ = .dict [("sha256", .str "abc")] ∧
    Hash.as_line ⟨"sha256", "abc"⟩ = "sha256:abc" :=
  ⟨rfl, rfl, rfl, rfl, rfl, rfl⟩

/-- C5: `Hash.__eq__` against another `Hash` returns `True` exactly when
the `value` fields agree (the algorithm name is ignored), and against
any non-`Hash` value it raises `TypeError` instead of returning
`False`. -/
theorem c5_hash_eq_value_only (h1 h2 : Hash) (v : PyVal) :
    (Hash.eqPy h1 (.hash h2) = .ok true ↔ h1.value = h2.value) ∧
    Hash.eqPy h1 (.val v) =
      .error (.typeError ("cannot compare Hash with " ++ pyReprTypeName v)) := by
  constructor
  · simp [Hash.eqPy]
  · rfl

/-- C5, instantiated: two hashes with different algorithm names but the
same digest compare equal; comparing with the non-`Hash` value `None`
raises `TypeError`. -/
theorem c5_hash_eq_value_only_witness :
    Hash.eqPy ⟨"sha256", "x"⟩ (.hash ⟨"md5", "x"⟩) = .ok true ∧
    Hash.eqPy ⟨"sha256", "x"⟩ (.val .none) =
      .error (.typeError ("cannot compare Hash with " ++ pyReprTypeName .none)) :=
  ⟨(c5_hash_eq_value_only ⟨"sha256", "x"⟩ ⟨"md5", "x"⟩ .none).1.mpr rfl,
   (c5_hash_eq_value_only ⟨"sha256", "x"⟩ ⟨"md5", "x"⟩ .none).2⟩

/-- C7: looking up a name that is not in the collection raises a
`KeyError` whose message names the missing package, which differs from
the bare key a generic `KeyError` would carry, and nothing is ever
returned silently. -/
theorem c7_missing_package_lookup (pc : PackageCollection) (name : String)
    (h : lookupPkg pc.packages name = Option.none) :
    PackageCollection.getItem pc name =
      .error (.keyError ("Package " ++ name ++ " not found")) ∧
    "Package " ++ name ++ " not found" ≠ name := by
  constructor
  · unfold PackageCollection.getItem
    rw [h]
  · intro he
    have hl : ("Package " ++ name ++ " not found").length = name.length := by rw [he]
    rw [String.length_append, String.length_append] at hl
    have h8 : "Package ".length = 8 := rfl
    have h10 : " not found".length = 10 := rfl
    rw [h8, h10] at hl
    omega

/-- C7 witness: the empty collection and the name `"nonexistent"`. -/
theorem c7_missing_package_lookup_witness :
    PackageCollection.getItem ⟨[]⟩ "nonexistent" =
      .error (.keyError ("Package " ++ "nonexistent" ++ " not found")) ∧
    "Package " ++ "nonexistent" ++ " not found" ≠ "nonexistent" :=
  c7_missing_package_lookup ⟨[]⟩ "nonexistent" rfl

/-- C9: `PackageSpecfiers.validate_extras` returns `None` on any list, and
`__post_init__` stores that return value, so the constructed object has
lost the list; a non-list raises `ValidationError`. -/
theorem c9_specfiers_extras_lost :
    (∀ xs : List PyVal, mkPackageSpecfiers (.list xs) = .ok ⟨PyVal.none⟩) ∧
    mkPackageSpecfiers (.dict []) = .error (.validationError "Extras must be a list") :=
  ⟨fun _ => rfl, rfl⟩

/-- C10: the hook is named `validate_full_python_version`, but the
dispatch looks for `validate_python_full_version`, which does not exist,
so any value (of any shape) passes through into `python_full_version`
unchanged. -/
theorem c10_full_version_never_validated :
    (∀ v : PyVal, mkRequires .none v = .ok ⟨.none, v⟩) ∧
    Requires.validatorFor ("validate_" ++ "python_full_version") = Option.none :=
  ⟨fun _ => rfl, rfl⟩

/-- C3 counterexample: `Meta` construction succeeds with the
`pipfile_spec` value `"06"`, a string different from `"6"`, because the
gate only checks `int(value) != 6`.  This refutes the claim that every
value other than the string `"6"` is rejected. -/
theorem c3_counterexample :
    mkMeta (.dict [("sha256", .str "deadbeef")]) (.str "06") (.dict []) (.list []) =
      .ok ⟨⟨"sha256", "deadbeef"⟩, .str "06", ⟨.none, .none⟩, ⟨[]⟩⟩ ∧
    PyVal.str "06" ≠ .str "6" :=
  ⟨rfl, by decide⟩

/-- C3 amended: constructing a `Meta` succeeds exactly when Python
`int()` of the `pipfile_spec` value equals 6 — so `"6"` is accepted, but
so are `"06"`, `" 6"`, `"+6"` and the integer 6; every other value
raises (`ValueError` from the gate or from `int()` itself, `TypeError`
for unconvertible shapes). -/
theorem c3_amended (pv : PyVal) :
    (∃ m, mkMeta (.dict [("sha256", .str "deadbeef")]) pv (.dict []) (.list []) =
      .ok m) ↔ pyToInt pv = .ok 6 := by
  have hsplit : mkMeta (.dict [("sha256", .str "deadbeef")]) pv (.dict []) (.list []) =
      ((pyToInt pv >>= fun n =>
          if n ≠ 6 then .error (.valueError "Only pipefile-spec version 6 is supported")
          else .ok pv) >>= fun ps =>
        .ok ⟨⟨"sha256", "deadbeef"⟩, ps, ⟨.none, .none⟩, ⟨[]⟩⟩) := rfl
  rw [hsplit]
  cases hn : pyToInt pv with
  | error e =>
      constructor
      · rintro ⟨m, hm⟩
        simp [Bind.bind, Except.bind] at hm
      · intro hc
        cases hc
  | ok n =>
      rw [except_ok_bind]
      by_cases h6 : n = 6
      · subst h6
        rw [if_neg (by simp : ¬ (6 : Int) ≠ 6), except_ok_bind]
        exact iff_of_true ⟨_, rfl⟩ rfl
      · rw [if_pos h6]
        constructor
        · rintro ⟨m, hm⟩
          simp [Bind.bind, Except.bind] at hm
        · intro hc
          injection hc with hc2
          exact absurd hc2 h6

/-- C3 amended, instantiated: accepting `"06"` is equivalent to its
`int()` conversion being 6, which holds. -/
theorem c3_amended_witness : pyToInt (PyVal.str "06") = Except.ok 6 :=
  (c3_amended (.str "06")).mp ⟨_, rfl⟩

/-- C6 counterexample: `Requires` accepts a present `python_version` of
`""` (and even the non-string `0`) without raising, because
`validate_python_version` returns any falsy value unchanged before the
pattern check; `""` does not match `^\d+\.\d+$`. -/
theorem c6_counterexample :
    mkRequires (.str "") .none = .ok ⟨.str "", .none⟩ ∧
    reMatchXY "" = false ∧
    mkRequires (.int 0) .none = .ok ⟨.int 0, .none⟩ :=
  ⟨rfl, rfl, rfl⟩

/-- The constructor `Requires(python_version=a, python_full_version=b)`
reduced to its only effective hook. -/
theorem mkRequires_split (a b : PyVal) :
    mkRequires a b =
      (Requires.validate_python_version a >>= fun pv => .ok ⟨pv, b⟩) := rfl

/-- C6 amended: a *truthy* string `python_version` is accepted unchanged
when it matches `^\d+\.\d+$` and raises `ValueError` (not the
`ValidationError` subclass) when it does not; a truthy non-string raises
`ValueError`; but falsy values (`None`, `""`, `0`, `False`, ...) bypass
validation entirely and are stored unchanged. -/
theorem c6_amended (s : String) (v : PyVal) :
    (pyTruthy (.str s) = true → reMatchXY s = true →
      mkRequires (.str s) .none = .ok ⟨.str s, .none⟩) ∧
    (pyTruthy (.str s) = true → reMatchXY s = false →
      mkRequires (.str s) .none = .error (.valueError
        ("python_version must be a string in the form " ++ sq ++ "X.Y" ++ sq))) ∧
    (pyTruthy v = false → mkRequires v .none = .ok ⟨v, .none⟩) ∧
    (pyTruthy v = true → (∀ s2, v ≠ .str s2) →
      mkRequires v .none = .error (.valueError "python_version must be a string")) := by
  refine ⟨?_, ?_, ?_, ?_⟩
  · intro ht hm
    rw [mkRequires_split]
    unfold Requires.validate_python_version
    rw [ht]
    simp only [Bool.true_eq_false, if_false, reduceIte, hm, if_pos]
    rfl
  · intro ht hm
    rw [mkRequires_split]
    unfold Requires.validate_python_version
    rw [ht]
    simp only [Bool.true_eq_false, if_false, reduceIte, hm]
    rfl
  · intro hf
    rw [mkRequires_split]
    unfold Requires.validate_python_version
    rw [hf]
    rfl
  · intro ht hns
    rw [mkRequires_split]
    unfold Requires.validate_python_version
    rw [ht]
    cases v with
    | str s2 => exact absurd rfl (hns s2)
    | none => simp [pyTruthy] at ht
    | bool b => rfl
    | int n => rfl
    | list xs => rfl
    | dict e => rfl

/-- C6 witness: the amended behavior exercised at `"3.11"` (accepted),
`"3.x"` (rejected with `ValueError`), `None` and `0` (falsy, stored
unchanged), and the non-string `3` (rejected). -/
theorem c6_amended_witness :
    mkRequires (.str "3.11") .none = .ok ⟨.str "3.11", .none⟩ ∧
    mkRequires (.str "3.x") .none = .error (.valueError
      ("python_version must be a string in the form " ++ sq ++ "X.Y" ++ sq)) ∧
    mkRequires .none .none = .ok ⟨.none, .none⟩ ∧
    mkRequires (.list [.str "x"]) .none =
      .error (.valueError "python_version must be a string") := by
  refine ⟨(c6_amended "3.11" .none).1 rfl rfl,
    (c6_amended "3.x" .none).2.1 rfl rfl,
    (c6_amended "" .none).2.2.1 rfl,
    (c6_amended "" (.list [.str "x"])).2.2.2 rfl ?_⟩
  intro s2 hs
  cases hs

/-- A raw source mapping carrying exactly the keyword set `Source`
requires: the three field keys present, `verify_ssl` boolean. -/
def srcMappingOk (d : Entries) : Bool :=
  dhas d "name" &&
  (match dlookup d "verify_ssl" with | some (.bool _) => true | _ => false) &&
  dhas d "url" &&
  d.all (fun kv => kv.1 == "name" || kv.1 == "verify_ssl" || kv.1 == "url")

/-- What a valid source mapping dumps back to: the same three values in
the canonical `dataclasses.asdict` field order. -/
def srcCanon (d : Entries) : PyVal :=
  .dict [("name", (dlookup d "name").getD .none),
         ("verify_ssl", (dlookup d "verify_ssl").getD .none),
         ("url", (dlookup d "url").getD .none)]

theorem sourceFromKwargs_ok (d : Entries) (h : srcMappingOk d = true) :
    ∃ b, dlookup d "verify_ssl" = some (.bool b) ∧
      Source.fromKwargs d =
        .ok ⟨(dlookup d "name").getD .none, b, (dlookup d "url").getD .none⟩ := by
  unfold srcMappingOk at h
  simp only [Bool.and_eq_true] at h
  obtain ⟨⟨⟨hn, hvm⟩, hu⟩, hall⟩ := h
  cases hvb : dlookup d "verify_ssl" with
  | none => rw [hvb] at hvm; cases hvm
  | some v =>
      cases v with
      | bool b =>
          refine ⟨b, rfl, ?_⟩
          unfold Source.fromKwargs
          have hvs : dhas d "verify_ssl" = true := by
            unfold dhas
            rw [hvb]
            rfl
          rw [if_pos (by rw [hn, hvs, hu, hall]; rfl)]
          unfold mkSource
          rw [hvb]
          rfl
      | none => rw [hvb] at hvm; cases hvm
      | int n => rw [hvb] at hvm; cases hvm
      | str s => rw [hvb] at hvm; cases hvm
      | list xs => rw [hvb] at hvm; cases hvm
      | dict e => rw [hvb] at hvm; cases hvm

theorem validateSources_mapped (ds : List Entries)
    (h : ∀ d ∈ ds, srcMappingOk d = true) :
    ∃ ss : List Source,
      validateSources (ds.map (fun d => SrcInput.raw (.dict d))) = .ok ss ∧
      ss.map Source.asdict = ds.map srcCanon := by
  induction ds with
  | nil => exact ⟨[], rfl, rfl⟩
  | cons d rest ih =>
      obtain ⟨ss, hss, hmap⟩ := ih (fun d2 hm => h d2 (List.mem_cons_of_mem _ hm))
      obtain ⟨b, hvb, hfk⟩ := sourceFromKwargs_ok d (h d (List.mem_cons_self _ _))
      refine ⟨⟨(dlookup d "name").getD .none, b, (dlookup d "url").getD .none⟩ :: ss,
        ?_, ?_⟩
      · simp only [List.map_cons]
        show (do
          let s ← Source.fromKwargs d
          let r ← validateSources (rest.map (fun d2 => SrcInput.raw (.dict d2)))
          Except.ok (s :: r)) = _
        rw [hfk, except_ok_bind, hss, except_ok_bind]
      · simp only [List.map_cons, hmap, Source.asdict, srcCanon, List.cons.injEq]
        refine ⟨?_, trivial⟩
        rw [hvb]
        rfl

/-- C8: constructing a `SourceCollection` from a list of valid source
mappings `[A, B, C]` and dumping it back yields the same mappings in the
same order. -/
theorem c8_source_order_preserved (ds : List Entries)
    (h : ∀ d ∈ ds, srcMappingOk d = true) :
    ∃ sc : SourceCollection,
      mkSourceCollection (ds.map (fun d => SrcInput.raw (.dict d))) = .ok sc ∧
      SourceCollection.dump sc = .list (ds.map srcCanon) := by
  obtain ⟨ss, hss, hmap⟩ := validateSources_mapped ds h
  refine ⟨⟨ss⟩, ?_, ?_⟩
  · unfold mkSourceCollection
    rw [hss, except_ok_bind]
  · unfold SourceCollection.dump
    rw [hmap]

/-- C8 witness: three concrete sources (the third written with its keys
in a different order) survive the decode/encode round trip in order. -/
theorem c8_source_order_preserved_witness :
    ∃ sc : SourceCollection,
      mkSourceCollection
        ([[("name", .str "pypi"), ("verify_ssl", .bool true),
           ("url", .str "https://pypi.org/simple")],
          [("name", .str "mirror"), ("verify_ssl", .bool false),
           ("url", .str "https://mirror.example/simple")],
          [("url", .str "https://third.example/simple"), ("name", .str "third"),
           ("verify_ssl", .bool true)]].map (fun d => SrcInput.raw (.dict d))) = .ok sc ∧
      SourceCollection.dump sc = .list
        ([[("name", .str "pypi"), ("verify_ssl", .bool true),
           ("url", .str "https://pypi.org/simple")],
          [("name", .str "mirror"), ("verify_ssl", .bool false),
           ("url", .str "https://mirror.example/simple")],
          [("url", .str "https://third.example/simple"), ("name", .str "third"),
           ("verify_ssl", .bool true)]].map srcCanon) := by
  apply c8_source_order_preserved
  intro d hm
  simp only [List.mem_cons, List.not_mem_nil, or_false] at hm
  rcases hm with rfl | rfl | rfl
  · rfl
  · rfl
  · rfl

/-- A `Package` built with only a name, as `Package(name="foo")`: the
`version` field keeps its declared default `"*"`. -/
def c1FooPkg : Package :=
  ⟨"foo", .str "*", .none, .none, .none, .none, .none, .none, .none, .none⟩

/-- The package the Lockfile decode path builds for the entry
`"requests": "*"`. -/
def c1ReqPkg : Package :=
  ⟨"requests", .str "*", .none, .none, .none, .none, .none, .none, .none, .none⟩

/-- C1 counterexample: a `Package` with no explicit version encodes to
`{"foo": {"version": "*"}}` rather than the bare string `"*"` (its
default version `"*"` is not the `"any"` sentinel `as_dict` collapses),
and decoding the entry `"requests": "*"` through `Lockfile`
construction yields version `"*"`, which re-encodes to
`{"requests": {"version": "*"}}`, not `"*"`. -/
theorem c1_counterexample :
    Package.fromKwargs "foo" [] = .ok c1FooPkg ∧
    Package.as_dict c1FooPkg = .ok (.dict [("foo", .dict [("version", .str "*")])]) ∧
    Lockfile.validate_default (.dict [("requests", .str "*")]) =
      .ok ⟨[("requests", c1ReqPkg)]⟩ ∧
    Package.as_dict c1ReqPkg =
      .ok (.dict [("requests", .dict [("version", .str "*")])]) ∧
    PyVal.dict [("foo", .dict [("version", .str "*")])] ≠ .dict [("foo", .str "*")] ∧
    PyVal.dict [("requests", .dict [("version", .str "*")])] ≠
      .dict [("requests", .str "*")] := by
  refine ⟨rfl, ?_, rfl, ?_, by decide, by decide⟩
  · unfold Package.as_dict
    rw [show remEntries (Package.asdictEntries c1FooPkg) =
        [("name", .str "foo"), ("version", .str "*")] by
      simp [remEntries, Package.asdictEntries, c1FooPkg]]
    rfl
  · unfold Package.as_dict
    rw [show remEntries (Package.asdictEntries c1ReqPkg) =
        [("name", .str "requests"), ("version", .str "*")] by
      simp [remEntries, Package.asdictEntries, c1ReqPkg]]
    rfl

/-- C1 amended: the `"*"` shorthand round-trips only through
`PackageCollection.validate_packages`, which maps `"*"` to the sentinel
version `"any"` that `as_dict` collapses back to `"*"`.  A `Package`
with no explicit version keeps the default `"*"` and encodes to
`{name: {"version": "*"}}`, and the Lockfile decode path turns a `"*"`
entry into version `"*"` as well, so re-encoding yields
`{name: {"version": "*"}}`, not `"*"`. -/
theorem c1_amended (name : String) :
    (∃ p, validatePackages [(name, PkgSpec.raw (.str "*"))] = .ok [(name, p)] ∧
      Package.as_dict p = .ok (.dict [(name, .str "*")])) ∧
    (name ≠ "" →
      ∃ p, Package.fromKwargs name [] = .ok p ∧
        Package.as_dict p = .ok (.dict [(name, .dict [("version", .str "*")])])) ∧
    (name ≠ "" →
      ∃ pc p, Lockfile.validate_default (.dict [(name, .str "*")]) = .ok pc ∧
        pc.packages = [(name, p)] ∧
        Package.as_dict p = .ok (.dict [(name, .dict [("version", .str "*")])])) := by
  have hstar : ∀ hname : name ≠ "",
      Package.as_dict ⟨name, .str "*", .none, .none, .none, .none, .none, .none,
        .none, .none⟩ = .ok (.dict [(name, .dict [("version", .str "*")])]) := by
    intro hname
    unfold Package.as_dict
    rw [show remEntries (Package.asdictEntries
        ⟨name, .str "*", .none, .none, .none, .none, .none, .none, .none, .none⟩) =
        [("name", .str name), ("version", .str "*")] by
      simp [remEntries, Package.asdictEntries, hname]]
    rfl
  refine ⟨?_, ?_, ?_⟩
  · refine ⟨⟨name, .str "any", .none, .none, .none, .none, .none, .none, .none, .none⟩,
      rfl, ?_⟩
    unfold Package.as_dict
    by_cases hname : name = ""
    · rw [show remEntries (Package.asdictEntries
          ⟨name, .str "any", .none, .none, .none, .none, .none, .none, .none, .none⟩) =
          [("version", .str "any")] by
        simp [remEntries, Package.asdictEntries, hname]]
      rfl
    · rw [show remEntries (Package.asdictEntries
          ⟨name, .str "any", .none, .none, .none, .none, .none, .none, .none, .none⟩) =
          [("name", .str name), ("version", .str "any")] by
        simp [remEntries, Package.asdictEntries, hname]]
      rfl
  · intro hname
    exact ⟨⟨name, .str "*", .none, .none, .none, .none, .none, .none, .none, .none⟩,
      rfl, hstar hname⟩
  · intro hname
    exact ⟨⟨[(name, ⟨name, .str "*", .none, .none, .none, .none, .none, .none,
        .none, .none⟩)]⟩,
      ⟨name, .str "*", .none, .none, .none, .none, .none, .none, .none, .none⟩,
      rfl, rfl, hstar hname⟩

/-- C1 witness: the amended behavior at the name `"requests"`. -/
theorem c1_amended_witness :
    (∃ p, validatePackages [("requests", PkgSpec.raw (.str "*"))] =
        .ok [("requests", p)] ∧
      Package.as_dict p = .ok (.dict [("requests", .str "*")])) ∧
    (∃ p, Package.fromKwargs "requests" [] = .ok p ∧
      Package.as_dict p = .ok (.dict [("requests", .dict [("version", .str "*")])])) ∧
    (∃ pc p, Lockfile.validate_default (.dict [("requests", .str "*")]) = .ok pc ∧
      pc.packages = [("requests", p)] ∧
      Package.as_dict p = .ok (.dict [("requests", .dict [("version", .str "*")])])) := by
  have h := c1_amended "requests"
  exact ⟨h.1, h.2.1 (by decide), h.2.2 (by decide)⟩

end Plette
